import Mathlib

set_option maxRecDepth 10000

/-!
Verification of the vim-plugin-manager release tool (vim-plugin-manager.py).

The development is a shallow embedding of the program: the pure string
processing of the tool is translated function-by-function, and the
effectful release orchestration is modelled as functions that return an
explicit trace of external effects (git calls, registry calls, file
operations, log messages) together with their result.  External
collaborators (the registry HTTP response, the committed file contents
returned by `git show`, the `git log` output, the interactive editor) are
supplied through an explicit environment record, mirroring the process
boundary of the original program.
-/

namespace VimTools

/-! ### Python string primitives

Helpers reproducing the Python 2 string operations used by the source
(`str.strip`, `str.rstrip`, `str.splitlines`, `str.split` with a
separator or with `None`, `int` on digit strings).  Python's whitespace
set for `strip`/`split(None)` is space, tab, newline, carriage return,
vertical tab and form feed. -/

def isSpaceChar (c : Char) : Bool :=
  c == ' ' || c == '\t' || c == '\n' || c == '\r' || c == '\x0b' || c == '\x0c'

/-- `str.lstrip()` on a character list. -/
def pyLstripList (l : List Char) : List Char :=
  l.dropWhile isSpaceChar

/-- `str.rstrip()` on a character list. -/
def pyRstripList (l : List Char) : List Char :=
  (l.reverse.dropWhile isSpaceChar).reverse

/-- Python `s.strip()`. -/
def pyStrip (s : String) : String :=
  String.mk (pyRstripList (pyLstripList s.data))

/-- Python `s.rstrip()`. -/
def pyRstrip (s : String) : String :=
  String.mk (pyRstripList s.data)

/-- Python `s.strip(cs)` for an explicit character set `cs`. -/
def pyStripChars (cs : List Char) (s : String) : String :=
  String.mk (((s.data.dropWhile cs.contains).reverse.dropWhile cs.contains).reverse)

/-- Python `s.rstrip(cs)` for an explicit character set `cs`. -/
def pyRstripChars (cs : List Char) (s : String) : String :=
  String.mk ((s.data.reverse.dropWhile cs.contains).reverse)

/-- Python `s.split(c)` for a single-character separator, on character
lists.  `split` of the empty list is `[[]]`, matching `''.split(c) == ['']`. -/
def splitCharList (c : Char) : List Char → List (List Char)
  | [] => [[]]
  | x :: xs =>
    match splitCharList c xs with
    | [] => [[]]
    | h :: t => if x = c then [] :: h :: t else (x :: h) :: t

/-- Python `s.split(c)` for a single-character separator. -/
def pySplitChar (c : Char) (s : String) : List String :=
  (splitCharList c s.data).map String.mk

/-- Python `s.startswith(pre)`. -/
def pyStartswith (s pre : String) : Bool :=
  pre.data.isPrefixOf s.data

/-- Python `s.splitlines()` restricted to `\n` line endings (the only
line endings occurring in the captured command output the tool feeds it):
a trailing newline does not produce a trailing empty line. -/
def pySplitlines (s : String) : List String :=
  if s.data = [] then []
  else if s.data.getLast? = some '\n' then (splitCharList '\n' s.data.dropLast).map String.mk
  else (splitCharList '\n' s.data).map String.mk

/-- Python `s.split(None, 1)` followed by unpacking into exactly two
variables, as in `commit_hash, commit_desc = line.split(None, 1)`:
leading whitespace is skipped, the first whitespace-free token is
returned together with the remainder after the following whitespace run;
`none` models the `ValueError` raised when fewer than two fields exist. -/
def pySplitWhitespaceOnce (s : String) : Option (String × String) :=
  let l := s.data.dropWhile isSpaceChar
  let tok := l.takeWhile (fun c => !isSpaceChar c)
  let rest := (l.dropWhile (fun c => !isSpaceChar c)).dropWhile isSpaceChar
  if tok.isEmpty || rest.isEmpty then none
  else some (String.mk tok, String.mk rest)

/-- `line.split('=', 1)[-1]`: the part after the first `=`, or the whole
string when no `=` occurs. -/
def pySplitOnceLastToken (c : Char) (s : String) : String :=
  if s.data.contains c then String.mk ((s.data.dropWhile (fun x => x != c)).drop 1)
  else s

/-- Python `int` on a string of decimal digits. -/
def pyIntDigits (s : String) : Nat :=
  s.data.foldl (fun n c => n * 10 + (c.toNat - '0'.toNat)) 0

/-! ### Data model -/

/-- One configured plug-in (a section of `~/.vimplugins`).  `scriptId`
models the optional `script-id` key. -/
structure Plugin where
  name : String
  directory : String
  scriptId : Option String
  autoloadScript : String
  zipFile : String
deriving DecidableEq, Repr

/-- Log severities of the `verboselogs` logger used by the tool. -/
inductive LogLevel where
  | debug | verbose | info | warn | error | fatal
deriving DecidableEq, Repr

/-- External effects performed by the tool, in program order.  Each git /
registry / file-system / editor interaction of the source is recorded as
one constructor; log calls are recorded with their severity and rendered
message. -/
inductive Effect where
  | gitPush
  | gitPushTags
  | registryQuery (scriptId : String)
  | committedVersionRead
  | changelogDraft (commitRange : String)
  | fileWrite (path contents : String)
  | editorRun (path : String)
  | fileDelete (path : String)
  | archiveCreate (path : String)
  | upload (version changelog : String)
  | browserOpen (url : String)
  | postHook (path : String)
  | tagCreate (version : String)
  | log (level : LogLevel) (message : String)
deriving DecidableEq, Repr

/-! ### The command runner (`run`) -/

/-- Exception signalling a nonzero exit of an external command; as in the
source it stores the rendered message and the exact argument vector. -/
structure ExternalCommandFailed where
  msg : String
  command : List String
deriving DecidableEq, Repr

/-- Python `repr` of a string (no escaping is needed for the argument
vectors the tool passes). -/
def pyReprStr (s : String) : String :=
  "'" ++ s ++ "'"

/-- Python `repr` of a tuple of strings, as produced by the `%r` format
of the argument tuple in `run`. -/
def pyReprTuple (args : List String) : String :=
  match args with
  | [a] => "(" ++ pyReprStr a ++ ",)"
  | _ => "(" ++ String.intercalate ", " (args.map pyReprStr) ++ ")"

/-- The command runner.  `returncode` and `childStdout` are the outcome
of the spawned process (the process boundary).  Captured output exists
exactly when `capture` was requested; on nonzero exit with `check` not
suppressed it fails with `ExternalCommandFailed` built from the exact
format string of the source.  `cwd` is the (absolute) working
directory. -/
def run (args : List String) (cwd : String) (capture check : Bool)
    (returncode : Nat) (childStdout : String) :
    Except ExternalCommandFailed (Option String) :=
  let stdout := if capture then some childStdout else none
  if check && returncode != 0 then
    .error ⟨"External command " ++ pyReprTuple args ++ " exited with code " ++
              toString returncode ++ " (working directory: " ++ cwd ++ ")", args⟩
  else
    .ok (stdout.map pyStrip)

/-! ### Version resolver -/

/-- `re.sub(r'^autoload/(.+?)\.vim$', r'\1', autoload_script)`: when the
path has the form `autoload/<nonempty>.vim` the wrapper is removed,
otherwise the string is unchanged. -/
def autoload_path (s : String) : String :=
  if "autoload/".data.isPrefixOf s.data && ".vim".data.isSuffixOf s.data &&
      decide (14 ≤ s.data.length) then
    String.mk ((s.data.drop 9).take ((s.data.drop 9).length - 4))
  else s

/-- `'let g:%s#version' % autoload_path.replace('/', '#')`. -/
def version_definition (p : Plugin) : String :=
  "let g:" ++
    String.mk ((autoload_path p.autoloadScript).data.map fun c =>
      if c = '/' then '#' else c) ++ "#version"

/-- `find_version_in_repository`, as a function of the committed contents
of the auto-load script (the output of `git show`): scan the lines for
the version definition, take the part after the first `=`, strip
whitespace, then strip quotes.  `none` models the exception raised when
no line matches. -/
def find_version_in_repository (p : Plugin) (scriptContents : String) : Option String :=
  (pySplitlines scriptContents).findSome? fun line =>
    if pyStartswith line (version_definition p) then
      some (pyStripChars ['\'', '"'] (pyStrip (pySplitOnceLastToken '=' line)))
    else none

/-- Lexicographic comparison of integer sequences: the ordering of
Python list comparison on `map(int, version_string.split('.'))`. -/
def lexLe : List Nat → List Nat → Bool
  | [], _ => true
  | _ :: _, [] => false
  | a :: as, b :: bs => if a < b then true else if b < a then false else lexLe as bs

/-- `map(int, version_string.split('.'))`. -/
def parse_version_string (s : String) : List Nat :=
  (pySplitChar '.' s).map pyIntDigits

/-- The proposition form of `lexLe`, used as the sort relation. -/
def versionLe (a b : List Nat) : Prop := lexLe a b = true

instance : DecidableRel versionLe := fun a b => by
  unfold versionLe; infer_instance

/-- `find_version_on_vim_online`, as a function of the version strings
scraped from the registry page (the rows matching the download pattern):
parse each into an integer sequence, sort ascending (Python
`list.sort()`, modelled by a stable sort under `versionLe`), take the
last element and re-join it with dots.  `none` models the exception
raised when no previous release is found. -/
def find_version_on_vim_online (releasedVersionStrings : List String) : Option String :=
  let released_versions := releasedVersionStrings.map parse_version_string
  if released_versions.isEmpty then none
  else
    let sorted := released_versions.insertionSort versionLe
    some (String.intercalate "." ((sorted.getLastD []).map toString))

/-- `current_branch`: `run('git', 'symbolic-ref', 'HEAD', ...)` output
split on `/`, last token. -/
def current_branch (symbolicRef : String) : String :=
  (pySplitChar '/' symbolicRef).getLastD ""

/-- `find_current_plugin`, as a function of the real path of the current
working directory and the configured `(name, real directory)` pairs: the
first plug-in whose directory is a string prefix of the working
directory; `none` models the exception raised when there is none. -/
def find_current_plugin (currentDirectory : String)
    (plugins : List (String × String)) : Option String :=
  (plugins.find? fun pl => pyStartswith currentDirectory pl.2).map (·.1)

/-! ### Changelog builder -/

/-- One rendered changelog entry:
`' \x95 %s:\n' % commit_desc.strip().rstrip(':') + '   %s/commit/%s' % (repo_url, commit_hash)`. -/
def changelog_item (repoUrl commitHash commitDesc : String) : String :=
  " \x95 " ++ pyRstripChars [':'] (pyStrip commitDesc) ++ ":\n" ++
    "   " ++ repoUrl ++ "/commit/" ++ commitHash

/-- `generate_changelog`, as a function of the captured `git log
--pretty=oneline --abbrev-commit` output for the commit range: iterate
the log lines in reverse (oldest first), split each into hash and
summary, render each entry and join with blank lines.  `none` models the
`ValueError` raised when a line cannot be unpacked into two fields. -/
def generate_changelog (pluginName : String) (commitLog : String) : Option String :=
  let repo_url := "http://github.com/" ++ pluginName
  ((pySplitlines commitLog).reverse.mapM fun line =>
      (pySplitWhitespaceOnce line).map fun hd => changelog_item repo_url hd.1 hd.2).map
    (String.intercalate "\n\n")

/-! ### The release orchestration, with explicit effect traces

The remaining operations interact with the outside world.  Each is
modelled as a function returning the list of effects it performs (in
program order) along with its result.  The `Env` record supplies the
responses of the external collaborators; external calls that no claim
depends on failing (pushes, archive creation, upload) are modelled as
succeeding, while the collaborators whose failure a claim mentions (the
registry scrape, the version scan, the log parse, the editor) are
fallible. -/

/-- Responses of the external collaborators during one release run. -/
structure Env where
  /-- Version strings scraped from the registry page rows. -/
  scrapedVersions : List String
  /-- Committed contents of the auto-load script (`git show` output). -/
  scriptContents : String
  /-- Captured `git log` output for the release commit range. -/
  commitLog : String
  /-- Whether the editor invocation exits with a zero status. -/
  editorOk : Bool
  /-- Contents of the transient changelog file after the edit session. -/
  edit : String → String
  /-- `which after-vim-plugin-release` result, when the hook is installed. -/
  postReleaseHook : Option String

/-- `publish_changes_to_github`: push commits, then tags. -/
def publish_changes_to_github : List Effect :=
  [.log .info "Pushing change sets to GitHub ..", .gitPush, .gitPushTags]

/-- The registry page URL for a script id. -/
def vim_online_url (scriptId : String) : String :=
  "http://www.vim.org/scripts/script.php?script_id=" ++ scriptId

/-- Effectful wrapper of `find_version_on_vim_online`: log, query the
registry, then (on success) log the count of releases found and the
latest one.  A `none` result models the exception raised when no
previous release is scraped. -/
def find_version_on_vim_online_run (scriptId : String) (env : Env) :
    List Effect × Option String :=
  let base : List Effect :=
    [.log .debug ("Finding last released version on " ++ vim_online_url scriptId ++ " .."),
     .registryQuery scriptId]
  match find_version_on_vim_online env.scrapedVersions with
  | none => (base, none)
  | some prev =>
    (base ++
      [.log .debug ("Found " ++ toString env.scrapedVersions.length ++
          " previous releases, sorting to find the latest .."),
       .log .info ("Found last release on Vim Online: " ++ prev)], some prev)

/-- Effectful wrapper of `find_version_in_repository`: log, read the
committed file contents, then scan them. -/
def find_version_in_repository_run (p : Plugin) (env : Env) :
    List Effect × Option String :=
  let base : List Effect :=
    [.log .debug ("Finding local committed version by scanning " ++ p.autoloadScript ++
        " for '" ++ version_definition p ++ "' .."),
     .committedVersionRead]
  match find_version_in_repository p env.scriptContents with
  | none => (base, none)
  | some v => (base ++ [.log .info ("Found last committed version: " ++ v)], some v)

/-- Effectful wrapper of `generate_changelog`: log, run the `git log`
query over the range `previous..current`, then render. -/
def generate_changelog_run (p : Plugin) (previousVersion currentVersion : String)
    (env : Env) : List Effect × Option String :=
  ([.log .debug "Generating change log based on git commits & tags ..",
    .changelogDraft (previousVersion ++ ".." ++ currentVersion)],
   generate_changelog p.name env.commitLog)

/-- Path of the transient changelog file. -/
def changelog_fname : String := "/tmp/vim-online-changelog"

/-- `approve_changelog`: write the draft to the transient file, run the
editor, then re-read the (r-stripped) contents and delete the file.
When the editor invocation fails (`env.editorOk = false`) the
`ExternalCommandFailed` exception propagates from the `run` call, so
neither the re-read nor the deletion happens; the result is `none`. -/
def approve_changelog_run (changelog : String) (env : Env) :
    List Effect × Option String :=
  let base : List Effect :=
    [.fileWrite changelog_fname changelog,
     .log .info "Waiting for approval of change log ..",
     .editorRun changelog_fname]
  if env.editorOk then
    (base ++ [.fileDelete changelog_fname], some (pyRstrip (env.edit changelog)))
  else (base, none)

/-- `generate_release_archive` followed by `publish_release_to_vim_online`:
archive the repository tip, upload it with the version and changelog,
delete the archive. -/
def publish_release_to_vim_online_run (p : Plugin) (newVersion changelog : String) :
    List Effect :=
  [.log .info "Preparing to upload release to Vim Online ..",
   .log .info ("Saving ZIP archive of HEAD to /tmp/" ++ p.zipFile ++ " .."),
   .archiveCreate ("/tmp/" ++ p.zipFile),
   .log .info "Uploading release to Vim Online (please be patient) ..",
   .upload newVersion changelog,
   .log .info "Finished uploading release archive!",
   .fileDelete ("/tmp/" ++ p.zipFile)]

/-- `show_release_on_vim_online`: open the plug-in page. -/
def show_release_on_vim_online_run (scriptId : String) : List Effect :=
  [.browserOpen (vim_online_url scriptId)]

/-- `run_post_release_hook`: look up the hook on the search path; when it
is absent this is downgraded to a debug message, otherwise the hook runs. -/
def run_post_release_hook_run (env : Env) : List Effect :=
  match env.postReleaseHook with
  | none => [.log .debug "Checking for post-release hook ..",
             .log .debug "No post-release hook installed!"]
  | some path => [.log .debug "Checking for post-release hook ..",
                  .log .info ("Running post-release hook " ++ path ++ " .."),
                  .postHook path]

/-- The fatal message logged when the editor command fails:
`"External command failed: %s" % ' '.join(e.command)`. -/
def editor_failed_fatal : String :=
  "External command failed: gvim --noplugin -fc e ++enc=cp1252 " ++ changelog_fname

/-- `publish_release`: the release orchestrator.  Returns the effect
trace and the process exit code (`0` for the normal terminations
including the abort outcomes, `1` when an exception reaches the
top-level handler, which logs it and calls `sys.exit(1)`). -/
def publish_release (p : Plugin) (dryRun : Bool) (env : Env) : List Effect × Nat :=
  let t0 := if dryRun then
      [Effect.log .warn "Skipping GitHub push because we're doing a dry run."]
    else publish_changes_to_github
  match p.scriptId with
  | none =>
    (t0 ++ [.log .info ("The plug-in " ++ p.name ++
        " does not have a script-id, so can't be published to vim.org.")], 0)
  | some sid =>
    let r1 := find_version_on_vim_online_run sid env
    match r1.2 with
    | none =>
      (t0 ++ r1.1 ++ [.log .error ("Failed to find any previous releases on '" ++
          vim_online_url sid ++ "'!")], 1)
    | some previous_release =>
      let r2 := find_version_in_repository_run p env
      match r2.2 with
      | none =>
        (t0 ++ r1.1 ++ r2.1 ++
          [.log .error ("Failed to determine last committed version of " ++ p.name ++ "!")], 1)
      | some committed_version =>
        if committed_version = previous_release then
          (t0 ++ r1.1 ++ r2.1 ++ [.log .info "Everything up to date!"], 0)
        else
          let r3 := generate_changelog_run p previous_release committed_version env
          match r3.2 with
          | none =>
            (t0 ++ r1.1 ++ r2.1 ++ r3.1 ++ [.log .error "ValueError"], 1)
          | some suggested_changelog =>
            let r4 := approve_changelog_run suggested_changelog env
            match r4.2 with
            | none =>
              (t0 ++ r1.1 ++ r2.1 ++ r3.1 ++ r4.1 ++
                [.log .fatal editor_failed_fatal, .log .error "ExternalCommandFailed"], 1)
            | some approved_changelog =>
              if pyStrip approved_changelog = "" then
                (t0 ++ r1.1 ++ r2.1 ++ r3.1 ++ r4.1 ++
                  [.log .error "Empty change log, canceling release .."], 0)
              else if dryRun then
                (t0 ++ r1.1 ++ r2.1 ++ r3.1 ++ r4.1 ++
                  [.log .warn "Skipping Vim Online release because we're doing a dry run."], 0)
              else
                (t0 ++ r1.1 ++ r2.1 ++ r3.1 ++ r4.1 ++
                  publish_release_to_vim_online_run p committed_version approved_changelog ++
                  show_release_on_vim_online_run sid ++
                  run_post_release_hook_run env ++
                  [.log .info "Done!"], 0)

/-- `tag_release` (the post-commit hook path): skip unless on the
`master` branch; compute the committed version; create the tag only when
it is not already present.  The repository tag list is threaded through
explicitly; `none` models the exception raised when the committed
version cannot be determined. -/
def tag_release (p : Plugin) (symbolicRef scriptContents : String)
    (tags : List String) : Option (List Effect × List String) :=
  if current_branch symbolicRef ≠ "master" then
    some ([.log .debug "Not on master branch: skipping release tag."], tags)
  else
    match find_version_in_repository p scriptContents with
    | none => none
    | some version =>
      if version ∈ tags then
        some ([.log .debug ("Tag " ++ version ++ " already exists ..")], tags)
      else
        some ([.log .info ("Creating tag for version " ++ version ++ " .."),
               .tagCreate version], tags ++ [version])

/-- Whether the transient changelog file exists after a trace of effects
(it does not exist before a run). -/
def tmpFileExistsAfter (tr : List Effect) : Bool :=
  tr.foldl (fun b e =>
    match e with
    | .fileWrite f _ => if f = changelog_fname then true else b
    | .fileDelete f => if f = changelog_fname then false else b
    | _ => b) false

/-! ### Helper lemmas -/

theorem lexLe_refl (a : List Nat) : lexLe a a = true := by
  induction a with
  | nil => rfl
  | cons x xs ih => simp [lexLe, ih]

theorem lexLe_total (a b : List Nat) : lexLe a b = true ∨ lexLe b a = true := by
  induction a generalizing b with
  | nil => exact .inl rfl
  | cons x xs ih =>
    cases b with
    | nil => exact .inr rfl
    | cons y ys =>
      rcases Nat.lt_trichotomy x y with h | rfl | h
      · exact .inl (by simp [lexLe, h])
      · rcases ih ys with h2 | h2
        · exact .inl (by simp [lexLe, h2])
        · exact .inr (by simp [lexLe, h2])
      · exact .inr (by simp [lexLe, h])

theorem lexLe_trans {a b c : List Nat} (h1 : lexLe a b = true)
    (h2 : lexLe b c = true) : lexLe a c = true := by
  induction a generalizing b c with
  | nil => rfl
  | cons x xs ih =>
    cases b with
    | nil => simp [lexLe] at h1
    | cons y ys =>
      cases c with
      | nil => simp [lexLe] at h2
      | cons z zs =>
        simp only [lexLe] at h1 h2 ⊢
        rcases Nat.lt_trichotomy x y with hxy | rfl | hxy
        · rcases Nat.lt_trichotomy y z with hyz | rfl | hyz
          · simp [Nat.lt_trans hxy hyz]
          · simp [hxy]
          · simp [Nat.lt_asymm hyz, hyz] at h2
        · simp only [Nat.lt_irrefl, if_false] at h1
          rcases Nat.lt_trichotomy x z with hxz | rfl | hxz
          · simp [hxz]
          · simp only [Nat.lt_irrefl, if_false] at h2 ⊢
            exact ih h1 h2
          · simp [Nat.lt_asymm hxz, hxz] at h2
        · simp [Nat.lt_asymm hxy, hxy] at h1

instance : IsTotal (List Nat) versionLe := ⟨fun a b => lexLe_total a b⟩

instance : IsTrans (List Nat) versionLe := ⟨fun _ _ _ h1 h2 => lexLe_trans h1 h2⟩

theorem pairwise_lexLe_getLastD :
    ∀ {l : List (List Nat)}, l.Pairwise versionLe →
      ∀ x ∈ l, lexLe x (l.getLastD []) = true := by
  intro l
  induction l with
  | nil => intro _ x hx; cases hx
  | cons a t ih =>
    intro hp x hx
    cases t with
    | nil =>
      rcases List.mem_singleton.mp hx with rfl
      exact lexLe_refl x
    | cons b t2 =>
      have hlast : (a :: b :: t2).getLastD [] = (b :: t2).getLastD [] := by
        simp [List.getLastD_eq_getLast?]
      rw [hlast]
      rcases List.mem_cons.mp hx with rfl | hx2
      · have hmem : (b :: t2).getLastD [] ∈ b :: t2 := by
          rw [List.getLastD_cons]
          exact List.getLastD_mem_cons t2 b
        exact (List.pairwise_cons.mp hp).1 _ hmem
      · exact ih hp.of_cons x hx2

theorem splitCharList_ne_nil (c : Char) (l : List Char) : splitCharList c l ≠ [] := by
  cases l with
  | nil => simp [splitCharList]
  | cons x xs =>
    simp only [splitCharList]
    rcases h : splitCharList c xs with _ | ⟨h1, t⟩
    · simp
    · by_cases hxc : x = c <;> simp [hxc]

theorem two_le_length_splitCharList {c : Char} {l : List Char} (h : c ∈ l) :
    2 ≤ (splitCharList c l).length := by
  induction l with
  | nil => cases h
  | cons x xs ih =>
    simp only [splitCharList]
    rcases hs : splitCharList c xs with _ | ⟨h1, t⟩
    · exact absurd hs (splitCharList_ne_nil c xs)
    · rcases List.mem_cons.mp h with rfl | hmem
      · simp
      · have hlen := ih hmem
        rw [hs] at hlen
        by_cases hxc : x = c
        · simp [hxc]
        · simpa [hxc] using hlen

theorem getLast?_splitCharList_append (c : Char) :
    ∀ (l₁ l₂ : List Char),
      (splitCharList c (l₁ ++ c :: l₂)).getLast? = (splitCharList c l₂).getLast? := by
  intro l₁
  induction l₁ with
  | nil =>
    intro l₂
    simp only [List.nil_append, splitCharList]
    rcases hs : splitCharList c l₂ with _ | ⟨h1, t⟩
    · exact absurd hs (splitCharList_ne_nil c l₂)
    · simp
  | cons x xs ih =>
    intro l₂
    simp only [List.cons_append, splitCharList]
    rcases hs : splitCharList c (xs ++ c :: l₂) with _ | ⟨h1, t⟩
    · exact absurd hs (splitCharList_ne_nil _ _)
    · have hlen : 2 ≤ (splitCharList c (xs ++ c :: l₂)).length :=
        two_le_length_splitCharList (by simp)
      rw [hs] at hlen
      cases t with
      | nil => simp at hlen
      | cons t0 ts =>
        have hih := ih l₂
        rw [hs] at hih
        by_cases hxc : x = c
        · simpa [hxc] using hih
        · simpa [hxc] using hih

theorem splitCharList_of_no_sep {c : Char} {l : List Char} (h : ∀ x ∈ l, x ≠ c) :
    splitCharList c l = [l] := by
  induction l with
  | nil => rfl
  | cons x xs ih =>
    have hx : x ≠ c := h x (.head _)
    have ih2 := ih fun y hy => h y (.tail _ hy)
    simp only [splitCharList, ih2]
    simp [hx]

/-! ### Claim theorems -/

/-- C8: For every invocation of the command runner `run`: on success with
capture requested it returns the child's standard output trimmed of
leading and trailing whitespace (and no value when capture was not
requested); on nonzero exit, unless the check is explicitly suppressed,
it fails with an `ExternalCommandFailed` error carrying the exact
argument vector and, inside the rendered message, the working
directory. -/
theorem run_contract (args : List String) (cwd : String) (capture check : Bool)
    (rc : Nat) (out : String) :
    (rc = 0 → run args cwd capture check rc out =
       .ok (if capture then some (pyStrip out) else none)) ∧
    (rc ≠ 0 → run args cwd capture true rc out =
       .error ⟨"External command " ++ pyReprTuple args ++ " exited with code " ++
           toString rc ++ " (working directory: " ++ cwd ++ ")", args⟩) := by
  constructor
  · rintro rfl
    cases capture <;> simp [run]
  · intro h
    simp [run, h]

/-- Witness for `run_contract` at concrete inputs: captured output is
trimmed on success, and a nonzero exit yields the error with the
argument vector and working directory. -/
theorem run_contract_witness :
    run ["git", "tag"] "/repo" true true 0 " v1 \n" = .ok (some "v1") ∧
    run ["git", "push"] "/repo" false true 1 "" =
      .error ⟨"External command ('git', 'push') exited with code 1 (working directory: /repo)",
              ["git", "push"]⟩ := by
  constructor
  · have h := (run_contract ["git", "tag"] "/repo" true true 0 " v1 \n").1 rfl
    simpa using h
  · have h := (run_contract ["git", "push"] "/repo" false true 1 "").2 (by decide)
    simpa using h

/-- C9 counterexample: with the branch `feature/foo` checked out, the
symbolic HEAD reference is `refs/heads/feature/foo`, and `current_branch`
returns `foo`, not the branch's short name `feature/foo`. -/
theorem current_branch_slash_counterexample :
    current_branch "refs/heads/feature/foo" = "foo" ∧
    current_branch "refs/heads/feature/foo" ≠ "feature/foo" := by
  constructor
  · rfl
  · decide

/-- C9 (amended): `current_branch` returns the last `/`-separated
component of the resolved symbolic HEAD reference; for every branch name
that contains no `/` separator this is the short name of the currently
checked-out branch. -/
theorem current_branch_no_slash (b : String) (h : ∀ c ∈ b.data, c ≠ '/') :
    current_branch ("refs/heads/" ++ b) = b := by
  have h1 : ("refs/heads/" ++ b).data = "refs/heads".data ++ '/' :: b.data := by
    rw [String.data_append]
    rw [show "refs/heads/".data = "refs/heads".data ++ ['/'] from by decide]
    simp
  unfold current_branch pySplitChar
  rw [h1, List.getLastD_eq_getLast?, List.getLast?_map,
      getLast?_splitCharList_append, splitCharList_of_no_sep h]
  rfl

/-- Witness for `current_branch_no_slash` at the branch `master`. -/
theorem current_branch_no_slash_witness :
    current_branch ("refs/heads/" ++ "master") = "master" :=
  current_branch_no_slash "master" (by decide)

/-- C10: `find_current_plugin` selects a configured component by
string-prefix matching of real paths: a `some` result names a configured
plug-in whose directory is a string prefix of the current working
directory; the result is `none` (the exception path) exactly when no
configured directory is such a prefix; and a sibling directory whose
path merely extends a configured directory's path is attributed to that
plug-in. -/
theorem find_current_plugin_prefix_match :
    (∀ (cwd : String) (plugins : List (String × String)) (name : String),
       find_current_plugin cwd plugins = some name →
       ∃ dir, (name, dir) ∈ plugins ∧ pyStartswith cwd dir = true) ∧
    (∀ (cwd : String) (plugins : List (String × String)),
       find_current_plugin cwd plugins = none ↔
       ∀ pl ∈ plugins, pyStartswith cwd pl.2 = false) ∧
    find_current_plugin "/home/user/vim-foo-extra"
      [("xolox/vim-foo", "/home/user/vim-foo")] = some "xolox/vim-foo" := by
  refine ⟨?_, ?_, by decide⟩
  · intro cwd plugins name hfind
    unfold find_current_plugin at hfind
    rcases Option.map_eq_some'.mp hfind with ⟨pl, hpl, rfl⟩
    refine ⟨pl.2, by simpa using List.mem_of_find?_eq_some hpl, ?_⟩
    simpa using List.find?_some hpl
  · intro cwd plugins
    simp [find_current_plugin, Option.map_eq_none', List.find?_eq_none]

/-- Witness for `find_current_plugin_prefix_match`: the prefix property
extracted from a concrete successful lookup, and the exception case on a
directory outside every configured plug-in. -/
theorem find_current_plugin_prefix_match_witness :
    (∃ dir, ("xolox/vim-foo", dir) ∈
        [("xolox/vim-foo", "/home/user/vim-foo")] ∧
       pyStartswith "/home/user/vim-foo-extra" dir = true) ∧
    find_current_plugin "/elsewhere" [("xolox/vim-foo", "/home/user/vim-foo")] = none := by
  constructor
  · exact find_current_plugin_prefix_match.1 "/home/user/vim-foo-extra"
      [("xolox/vim-foo", "/home/user/vim-foo")] "xolox/vim-foo"
      find_current_plugin_prefix_match.2.2
  · exact (find_current_plugin_prefix_match.2.1 "/elsewhere"
      [("xolox/vim-foo", "/home/user/vim-foo")]).mpr (by decide)

/-- C7 counterexample: when the editor invocation fails, `approve_changelog`
propagates the `ExternalCommandFailed` exception before reaching the
deletion, so the transient changelog file still exists afterwards. -/
theorem approve_changelog_leak_counterexample :
    (approve_changelog_run "draft" ⟨[], "", "", false, fun s => s, none⟩).2 = none ∧
    Effect.fileDelete changelog_fname ∉
      (approve_changelog_run "draft" ⟨[], "", "", false, fun s => s, none⟩).1 ∧
    tmpFileExistsAfter
      (approve_changelog_run "draft" ⟨[], "", "", false, fun s => s, none⟩).1 = true := by
  refine ⟨rfl, by decide, rfl⟩

/-- C7 (amended): `approve_changelog` deletes the transient changelog
file and returns the edited (right-trimmed) text whenever the editor
step succeeds; when the editor invocation fails, the exception
propagates and the file is left behind. -/
theorem approve_changelog_deletes_on_success (changelog : String) (env : Env)
    (h : env.editorOk = true) :
    approve_changelog_run changelog env =
      ([.fileWrite changelog_fname changelog,
        .log .info "Waiting for approval of change log ..",
        .editorRun changelog_fname,
        .fileDelete changelog_fname], some (pyRstrip (env.edit changelog))) ∧
    tmpFileExistsAfter (approve_changelog_run changelog env).1 = false := by
  constructor
  · simp [approve_changelog_run, h]
  · simp [approve_changelog_run, h, tmpFileExistsAfter]

/-- Witness for `approve_changelog_deletes_on_success` at a concrete
environment whose editor succeeds. -/
theorem approve_changelog_deletes_on_success_witness :
    approve_changelog_run "draft" ⟨[], "", "", true, fun s => s ++ " edited \n", none⟩ =
      ([.fileWrite changelog_fname "draft",
        .log .info "Waiting for approval of change log ..",
        .editorRun changelog_fname,
        .fileDelete changelog_fname], some "draft edited") ∧
    tmpFileExistsAfter
      (approve_changelog_run "draft" ⟨[], "", "", true, fun s => s ++ " edited \n", none⟩).1 =
      false := by
  have h := approve_changelog_deletes_on_success "draft"
    ⟨[], "", "", true, fun s => s ++ " edited \n", none⟩ rfl
  simpa using h

/-- Shared concrete plug-in configuration used by the witnesses. -/
def widgetPlugin : Plugin :=
  { name := "acme/widget", directory := "/home/user/vim-widget",
    scriptId := some "1234", autoloadScript := "autoload/widget.vim",
    zipFile := "widget.zip" }

/-- C6: `generate_changelog` renders the commits of the range oldest
first (the log order is reversed before rendering), strips the trailing
colon from each one-line summary before formatting, joins the entries
with blank-line separation, and tolerates an empty commit range by
returning an empty changelog without failing.  The concrete clause is
the spec's three-commit scenario, with `Add docs:` rendered from the
stripped summary `Add docs`. -/
theorem generate_changelog_spec :
    (∀ name : String, generate_changelog name "" = some "") ∧
    (∀ (name log l1 l2 h1 d1 h2 d2 : String),
       pySplitlines log = [l1, l2] →
       pySplitWhitespaceOnce l1 = some (h1, d1) →
       pySplitWhitespaceOnce l2 = some (h2, d2) →
       generate_changelog name log =
         some (changelog_item ("http://github.com/" ++ name) h2 d2 ++ "\n\n" ++
               changelog_item ("http://github.com/" ++ name) h1 d1)) ∧
    generate_changelog "acme/widget"
        "abc1234 Refactor\ndef5678 Add docs:\n1234567 Fix off-by-one" =
      some (" \x95 Fix off-by-one:\n   http://github.com/acme/widget/commit/1234567\n\n" ++
            " \x95 Add docs:\n   http://github.com/acme/widget/commit/def5678\n\n" ++
            " \x95 Refactor:\n   http://github.com/acme/widget/commit/abc1234") := by
  refine ⟨fun name => rfl, ?_, by decide⟩
  intro name log l1 l2 h1 d1 h2 d2 hsplit hw1 hw2
  simp [generate_changelog, hsplit, hw1, hw2, List.mapM.loop, String.intercalate,
    String.intercalate.go, String.append_assoc]

/-- Witness for `generate_changelog_spec`: the two-line clause applied to
a concrete two-commit log, showing the reversal and the blank-line join. -/
theorem generate_changelog_spec_witness :
    generate_changelog "acme/widget" "bbb2 Newer change\naaa1 Older change" =
      some (changelog_item ("http://github.com/" ++ "acme/widget") "aaa1" "Older change" ++
            "\n\n" ++
            changelog_item ("http://github.com/" ++ "acme/widget") "bbb2" "Newer change") :=
  generate_changelog_spec.2.1 "acme/widget" "bbb2 Newer change\naaa1 Older change"
    "bbb2 Newer change" "aaa1 Older change" "bbb2" "Newer change" "aaa1" "Older change"
    (by decide) (by decide) (by decide)

/-- C3: the version comparison used by `find_version_on_vim_online` is
component-wise numeric on the dotted integer sequences, not string
comparison: for every nonempty set of scraped version strings the result
renders a parsed version that is maximal under the `lexLe` ordering
among all parsed candidates; in particular `2.10` compares greater than
`2.9`. -/
theorem find_version_on_vim_online_max (vs : List String) (h : vs ≠ []) :
    (∃ m, find_version_on_vim_online vs =
            some (String.intercalate "." (m.map toString)) ∧
          m ∈ vs.map parse_version_string ∧
          ∀ l ∈ vs.map parse_version_string, lexLe l m = true) ∧
    find_version_on_vim_online ["2.9", "2.10"] = some "2.10" := by
  refine ⟨?_, by decide⟩
  have hne : vs.map parse_version_string ≠ [] := by simpa using h
  have hperm : List.Perm ((vs.map parse_version_string).insertionSort versionLe)
      (vs.map parse_version_string) := List.perm_insertionSort versionLe _
  have hsne : (vs.map parse_version_string).insertionSort versionLe ≠ [] := by
    intro h0
    apply hne
    have hl := hperm.length_eq
    rw [h0] at hl
    exact List.length_eq_zero.mp hl.symm
  refine ⟨((vs.map parse_version_string).insertionSort versionLe).getLastD [], ?_, ?_, ?_⟩
  · simp [find_version_on_vim_online, List.isEmpty_iff, hne]
  · have hmem : ((vs.map parse_version_string).insertionSort versionLe).getLastD [] ∈
        (vs.map parse_version_string).insertionSort versionLe := by
      cases hs : (vs.map parse_version_string).insertionSort versionLe with
      | nil => exact absurd hs hsne
      | cons a t =>
        rw [List.getLastD_cons]
        exact List.getLastD_mem_cons t a
    exact hperm.subset hmem
  · intro l hl
    exact pairwise_lexLe_getLastD (List.sorted_insertionSort versionLe _) l
      (hperm.mem_iff.mpr hl)

/-- Witness for `find_version_on_vim_online_max` on a concrete candidate
set. -/
theorem find_version_on_vim_online_max_witness :
    (∃ m, find_version_on_vim_online ["1.0", "1.2", "1.10"] =
            some (String.intercalate "." (m.map toString)) ∧
          m ∈ ["1.0", "1.2", "1.10"].map parse_version_string ∧
          ∀ l ∈ ["1.0", "1.2", "1.10"].map parse_version_string, lexLe l m = true) ∧
    find_version_on_vim_online ["2.9", "2.10"] = some "2.10" :=
  find_version_on_vim_online_max ["1.0", "1.2", "1.10"] (by decide)

/-- C1: `tag_release` computes the committed version and creates a tag
of that name only if it is absent from the existing tag set and only on
the `master` branch; a second run with no intervening commits performs
no tag creation and leaves the tag list unchanged, with exactly one tag
named after the committed version (when starting from a duplicate-free
tag list on `master`). -/
theorem tag_release_idempotent (p : Plugin) (symref script : String)
    (tags : List String) (v : String)
    (hv : find_version_in_repository p script = some v) :
    ∃ t1 tags1 t2 tags2,
      tag_release p symref script tags = some (t1, tags1) ∧
      tag_release p symref script tags1 = some (t2, tags2) ∧
      (∀ w, Effect.tagCreate w ∈ t1 →
        w = v ∧ current_branch symref = "master" ∧ v ∉ tags) ∧
      (current_branch symref = "master" → v ∉ tags → Effect.tagCreate v ∈ t1) ∧
      (∀ w, Effect.tagCreate w ∉ t2) ∧
      tags2 = tags1 ∧
      (current_branch symref = "master" → tags.count v ≤ 1 → tags1.count v = 1) := by
  by_cases hb : current_branch symref = "master"
  · by_cases hm : v ∈ tags
    · refine ⟨[.log .debug ("Tag " ++ v ++ " already exists ..")], tags,
              [.log .debug ("Tag " ++ v ++ " already exists ..")], tags,
              ?_, ?_, ?_, ?_, ?_, rfl, ?_⟩
      · simp [tag_release, hb, hv, hm]
      · simp [tag_release, hb, hv, hm]
      · intro w hw; simp at hw
      · intro _ hnm; exact absurd hm hnm
      · intro w; simp
      · intro _ hc
        have h1 : tags.count v ≠ 0 := fun h0 => (List.count_eq_zero.mp h0) hm
        omega
    · refine ⟨[.log .info ("Creating tag for version " ++ v ++ " .."), .tagCreate v],
              tags ++ [v],
              [.log .debug ("Tag " ++ v ++ " already exists ..")], tags ++ [v],
              ?_, ?_, ?_, ?_, ?_, rfl, ?_⟩
      · simp [tag_release, hb, hv, hm]
      · simp [tag_release, hb, hv]
      · intro w hw
        simp at hw
        exact ⟨hw, hb, hm⟩
      · intro _ _; simp
      · intro w; simp
      · intro _ _
        rw [List.count_append]
        simp [List.count_eq_zero.mpr hm]
  · refine ⟨[.log .debug "Not on master branch: skipping release tag."], tags,
            [.log .debug "Not on master branch: skipping release tag."], tags,
            ?_, ?_, ?_, ?_, ?_, rfl, ?_⟩
    · simp [tag_release, hb]
    · simp [tag_release, hb]
    · intro w hw; simp at hw
    · intro hb2; exact absurd hb2 hb
    · intro w; simp
    · intro hb2; exact absurd hb2 hb

/-- Witness for `tag_release_idempotent` on a concrete repository state
on the `master` branch with the committed version not yet tagged. -/
theorem tag_release_idempotent_witness :
    ∃ t1 tags1 t2 tags2,
      tag_release widgetPlugin "refs/heads/master" "let g:widget#version = '1.2.0'"
        ["1.0.0", "1.1.0"] = some (t1, tags1) ∧
      tag_release widgetPlugin "refs/heads/master" "let g:widget#version = '1.2.0'"
        tags1 = some (t2, tags2) ∧
      (∀ w, Effect.tagCreate w ∈ t1 →
        w = "1.2.0" ∧ current_branch "refs/heads/master" = "master" ∧
          "1.2.0" ∉ ["1.0.0", "1.1.0"]) ∧
      (current_branch "refs/heads/master" = "master" →
        "1.2.0" ∉ ["1.0.0", "1.1.0"] → Effect.tagCreate "1.2.0" ∈ t1) ∧
      (∀ w, Effect.tagCreate w ∉ t2) ∧
      tags2 = tags1 ∧
      (current_branch "refs/heads/master" = "master" →
        (["1.0.0", "1.1.0"].count "1.2.0") ≤ 1 → tags1.count "1.2.0" = 1) :=
  tag_release_idempotent widgetPlugin "refs/heads/master"
    "let g:widget#version = '1.2.0'" ["1.0.0", "1.1.0"] "1.2.0" (by decide)

/-- C2: for every run of `publish_release` with dry-run enabled, no push,
upload, or tag-creation call appears in the effect trace, while the
version-resolution calls (registry query, committed-version read) and
the changelog-drafting call still execute — whenever their guarding
conditions hold, exactly as in a non-dry run — and are logged. -/
theorem publish_release_dry_run_pure (p : Plugin) (env : Env) :
    Effect.gitPush ∉ (publish_release p true env).1 ∧
    Effect.gitPushTags ∉ (publish_release p true env).1 ∧
    (∀ v c, Effect.upload v c ∉ (publish_release p true env).1) ∧
    (∀ v, Effect.tagCreate v ∉ (publish_release p true env).1) ∧
    (∀ sid, p.scriptId = some sid →
       Effect.registryQuery sid ∈ (publish_release p true env).1 ∧
       Effect.log .debug ("Finding last released version on " ++ vim_online_url sid ++ " ..")
         ∈ (publish_release p true env).1) ∧
    (∀ sid prev, p.scriptId = some sid →
       find_version_on_vim_online env.scrapedVersions = some prev →
       Effect.committedVersionRead ∈ (publish_release p true env).1 ∧
       Effect.log .debug ("Finding local committed version by scanning " ++
           p.autoloadScript ++ " for '" ++ version_definition p ++ "' ..")
         ∈ (publish_release p true env).1) ∧
    (∀ sid prev comm, p.scriptId = some sid →
       find_version_on_vim_online env.scrapedVersions = some prev →
       find_version_in_repository p env.scriptContents = some comm →
       comm ≠ prev →
       Effect.changelogDraft (prev ++ ".." ++ comm) ∈ (publish_release p true env).1 ∧
       Effect.log .debug "Generating change log based on git commits & tags .."
         ∈ (publish_release p true env).1) := by
  rcases hsid : p.scriptId with _ | sid
  · simp [publish_release, hsid]
  · rcases hprev : find_version_on_vim_online env.scrapedVersions with _ | prev
    · simp [publish_release, hsid, find_version_on_vim_online_run, hprev]
    · rcases hcomm : find_version_in_repository p env.scriptContents with _ | comm
      · simp [publish_release, hsid, find_version_on_vim_online_run, hprev,
          find_version_in_repository_run, hcomm]
      · by_cases heq : comm = prev
        · simp [publish_release, hsid, find_version_on_vim_online_run, hprev,
            find_version_in_repository_run, hcomm, heq]
        · rcases hgen : generate_changelog p.name env.commitLog with _ | sugg
          · simp [publish_release, hsid, find_version_on_vim_online_run, hprev,
              find_version_in_repository_run, hcomm, heq, generate_changelog_run, hgen]
          · rcases hed : env.editorOk with _ | _
            · simp [publish_release, hsid, find_version_on_vim_online_run, hprev,
                find_version_in_repository_run, hcomm, heq, generate_changelog_run, hgen,
                approve_changelog_run, hed]
            · by_cases happ : pyStrip (pyRstrip (env.edit sugg)) = ""
              · simp [publish_release, hsid, find_version_on_vim_online_run, hprev,
                  find_version_in_repository_run, hcomm, heq, generate_changelog_run, hgen,
                  approve_changelog_run, hed, happ]
              · simp [publish_release, hsid, find_version_on_vim_online_run, hprev,
                  find_version_in_repository_run, hcomm, heq, generate_changelog_run, hgen,
                  approve_changelog_run, hed, happ]

/-- Witness for `publish_release_dry_run_pure` at a concrete plug-in and
environment. -/
theorem publish_release_dry_run_pure_witness :
    Effect.gitPush ∉
      (publish_release widgetPlugin true
        ⟨["1.1.0"], "let g:widget#version = '1.2.0'", "abc1234 Fix off-by-one", true,
         fun s => s, none⟩).1 ∧
    Effect.registryQuery "1234" ∈
      (publish_release widgetPlugin true
        ⟨["1.1.0"], "let g:widget#version = '1.2.0'", "abc1234 Fix off-by-one", true,
         fun s => s, none⟩).1 ∧
    Effect.committedVersionRead ∈
      (publish_release widgetPlugin true
        ⟨["1.1.0"], "let g:widget#version = '1.2.0'", "abc1234 Fix off-by-one", true,
         fun s => s, none⟩).1 ∧
    Effect.changelogDraft ("1.1.0" ++ ".." ++ "1.2.0") ∈
      (publish_release widgetPlugin true
        ⟨["1.1.0"], "let g:widget#version = '1.2.0'", "abc1234 Fix off-by-one", true,
         fun s => s, none⟩).1 := by
  have h := publish_release_dry_run_pure widgetPlugin
    ⟨["1.1.0"], "let g:widget#version = '1.2.0'", "abc1234 Fix off-by-one", true,
     fun s => s, none⟩
  exact ⟨h.1,
    (h.2.2.2.2.1 "1234" rfl).1,
    (h.2.2.2.2.2.1 "1234" "1.1.0" rfl (by decide)).1,
    (h.2.2.2.2.2.2 "1234" "1.1.0" "1.2.0" rfl (by decide) (by decide) (by decide)).1⟩

/-- C5: when the committed version equals the last-published version,
`publish_release` terminates with exit code 0 as an idempotent no-op:
the up-to-date message is logged and no changelog is drafted, no
approval step runs, no upload occurs, and no tag is created. -/
theorem publish_release_up_to_date (p : Plugin) (d : Bool) (env : Env)
    (sid prev : String)
    (hsid : p.scriptId = some sid)
    (hprev : find_version_on_vim_online env.scrapedVersions = some prev)
    (hcomm : find_version_in_repository p env.scriptContents = some prev) :
    (publish_release p d env).2 = 0 ∧
    Effect.log .info "Everything up to date!" ∈ (publish_release p d env).1 ∧
    (∀ r, Effect.changelogDraft r ∉ (publish_release p d env).1) ∧
    (∀ f, Effect.editorRun f ∉ (publish_release p d env).1) ∧
    (∀ f c, Effect.fileWrite f c ∉ (publish_release p d env).1) ∧
    (∀ v c, Effect.upload v c ∉ (publish_release p d env).1) ∧
    (∀ f, Effect.archiveCreate f ∉ (publish_release p d env).1) ∧
    (∀ v, Effect.tagCreate v ∉ (publish_release p d env).1) := by
  rcases d <;>
    simp [publish_release, hsid, find_version_on_vim_online_run, hprev,
      find_version_in_repository_run, hcomm, publish_changes_to_github]

/-- Witness for `publish_release_up_to_date` at a concrete state whose
committed and published versions agree. -/
theorem publish_release_up_to_date_witness :
    ((publish_release widgetPlugin false
        ⟨["1.2.0"], "let g:widget#version = '1.2.0'", "", true, fun s => s, none⟩).2 = 0) ∧
    Effect.log .info "Everything up to date!" ∈
      (publish_release widgetPlugin false
        ⟨["1.2.0"], "let g:widget#version = '1.2.0'", "", true, fun s => s, none⟩).1 := by
  have h := publish_release_up_to_date widgetPlugin false
    ⟨["1.2.0"], "let g:widget#version = '1.2.0'", "", true, fun s => s, none⟩
    "1234" "1.2.0" rfl (by decide) (by decide)
  exact ⟨h.1, h.2.1⟩

/-- C4 counterexample.  First input: the approved changelog trims to the
empty string; the run aborts but the abort is reported by
`logger.error` — error severity, not informational severity as the claim
states.  Second input: the draft changelog is empty (empty commit range)
but the human editor enters text; the run does not abort — it uploads —
so an empty draft alone does not force the abort outcome either. -/
theorem publish_release_abort_severity_counterexample :
    (Effect.log .error "Empty change log, canceling release .." ∈
       (publish_release widgetPlugin false
         ⟨["1.1.0"], "let g:widget#version = '1.2.0'", "abc1234 Fix off-by-one", true,
          fun _ => " ", none⟩).1 ∧
     Effect.log .info "Empty change log, canceling release .." ∉
       (publish_release widgetPlugin false
         ⟨["1.1.0"], "let g:widget#version = '1.2.0'", "abc1234 Fix off-by-one", true,
          fun _ => " ", none⟩).1) ∧
    (generate_changelog widgetPlugin.name "" = some "" ∧
     Effect.upload "1.2.0" "Manually written entry" ∈
       (publish_release widgetPlugin false
         ⟨["1.1.0"], "let g:widget#version = '1.2.0'", "", true,
          fun _ => "Manually written entry", none⟩).1) := by
  decide

/-- C4 (amended): whenever the human-approved changelog text trims to
the empty string, `publish_release` terminates in the abort outcome with
no upload, no archive, and no tag creation; the abort is reported at
error severity and the process exits with code 0. -/
theorem publish_release_empty_approval_aborts (p : Plugin) (d : Bool) (env : Env)
    (sid prev comm sugg : String)
    (hsid : p.scriptId = some sid)
    (hprev : find_version_on_vim_online env.scrapedVersions = some prev)
    (hcomm : find_version_in_repository p env.scriptContents = some comm)
    (hne : comm ≠ prev)
    (hgen : generate_changelog p.name env.commitLog = some sugg)
    (hed : env.editorOk = true)
    (happ : pyStrip (pyRstrip (env.edit sugg)) = "") :
    (publish_release p d env).2 = 0 ∧
    Effect.log .error "Empty change log, canceling release .."
      ∈ (publish_release p d env).1 ∧
    (∀ v c, Effect.upload v c ∉ (publish_release p d env).1) ∧
    (∀ f, Effect.archiveCreate f ∉ (publish_release p d env).1) ∧
    (∀ v, Effect.tagCreate v ∉ (publish_release p d env).1) := by
  rcases d <;>
    simp [publish_release, hsid, find_version_on_vim_online_run, hprev,
      find_version_in_repository_run, hcomm, hne, generate_changelog_run, hgen,
      approve_changelog_run, hed, happ, publish_changes_to_github]

/-- Witness for `publish_release_empty_approval_aborts` at a concrete
run whose editor clears the changelog. -/
theorem publish_release_empty_approval_aborts_witness :
    ((publish_release widgetPlugin false
        ⟨["1.1.0"], "let g:widget#version = '1.2.0'", "abc1234 Fix off-by-one", true,
         fun _ => " ", none⟩).2 = 0) ∧
    Effect.log .error "Empty change log, canceling release .." ∈
      (publish_release widgetPlugin false
        ⟨["1.1.0"], "let g:widget#version = '1.2.0'", "abc1234 Fix off-by-one", true,
         fun _ => " ", none⟩).1 := by
  have h := publish_release_empty_approval_aborts widgetPlugin false
    ⟨["1.1.0"], "let g:widget#version = '1.2.0'", "abc1234 Fix off-by-one", true,
     fun _ => " ", none⟩
    "1234" "1.1.0" "1.2.0" " \x95 Fix off-by-one:\n   http://github.com/acme/widget/commit/abc1234"
    rfl (by decide) (by decide) (by decide) (by decide) rfl (by decide)
  exact ⟨h.1, h.2.1⟩
